import Mathlib

/-!
Shallow embedding of the depth-based geometric core of the 3d-viewer
repository: `generate_displaced_mesh` from python-backend/generate_mesh.py
and `shift_view` from python-backend/generate_views.py.

Machine floating point is modelled by exact rational arithmetic; single
channel rasters are total functions from pixel coordinates to rational
sample values together with their dimensions.  `cv2.imread` returning
`None` for an unreadable file is modelled by an `Option` input, and a
Python call's outcome (normal return versus propagated exception) by
`PyResult`.
-/

/-- A single-channel raster: height, width, and a pixel function `px y x`
(row index first, matching numpy indexing `arr[y, x]`). -/
structure Gray where
  h : ℕ
  w : ℕ
  px : ℕ → ℕ → ℚ

/-- Outcome of a Python call: `normal v` models the function returning the
value `v`; `exn msg` models an uncaught exception propagating to the
caller. -/
inductive PyResult (α : Type) where
  | normal : α → PyResult α
  | exn : String → PyResult α
  deriving DecidableEq

/-- True exactly when the call ended in a propagated exception. -/
def PyResult.isExn {α : Type} : PyResult α → Bool
  | .exn _ => true
  | .normal _ => false

/-- Entry `i` of `np.linspace a b n` (exact rational arithmetic; `n = 1`
yields the start point, matching numpy). -/
def linspace (a b : ℚ) (n : ℕ) (i : ℕ) : ℚ :=
  if n ≤ 1 then a else a + ((b - a) * i) / ((n : ℚ) - 1)

/-- Float-to-integer conversion as performed by `ndarray.astype(int)`:
truncation toward zero. -/
def truncInt (q : ℚ) : ℤ := if 0 ≤ q then ⌊q⌋ else ⌈q⌉

/-- `np.clip v 0 hi` followed by use as a non-negative index. -/
def clipNat (v : ℤ) (hi : ℕ) : ℕ := (min (max v 0) (hi : ℤ)).toNat

/-- Index clamping performed by `cv2.BORDER_REPLICATE`. -/
def clampIdx (i : ℤ) (n : ℕ) : ℕ := (min (max i 0) ((n : ℤ) - 1)).toNat

/-- Bilinear sampling of a raster at fractional coordinates `(fx, fy)` with
replicated borders (`cv2.INTER_LINEAR` with `cv2.BORDER_REPLICATE`, in
exact rational arithmetic). -/
def bilinearSample (g : Gray) (fx fy : ℚ) : ℚ :=
  (1 - (fy - (⌊fy⌋ : ℚ))) *
      ((1 - (fx - (⌊fx⌋ : ℚ))) * g.px (clampIdx ⌊fy⌋ g.h) (clampIdx ⌊fx⌋ g.w)
        + (fx - (⌊fx⌋ : ℚ)) * g.px (clampIdx ⌊fy⌋ g.h) (clampIdx (⌊fx⌋ + 1) g.w))
    + (fy - (⌊fy⌋ : ℚ)) *
      ((1 - (fx - (⌊fx⌋ : ℚ))) * g.px (clampIdx (⌊fy⌋ + 1) g.h) (clampIdx ⌊fx⌋ g.w)
        + (fx - (⌊fx⌋ : ℚ)) * g.px (clampIdx (⌊fy⌋ + 1) g.h) (clampIdx (⌊fx⌋ + 1) g.w))

/-- `cv2.resize` of a raster to `(w, h)` with `INTER_LINEAR` (half-pixel
centre convention `src = (dst + 0.5) * scale - 0.5`; the uint8
requantisation of the resized result is abstracted to exact rationals). -/
def resizeGray (g : Gray) (w h : ℕ) : Gray :=
  ⟨h, w, fun y x =>
    bilinearSample g (((x : ℚ) + 1 / 2) * g.w / w - 1 / 2)
      (((y : ℚ) + 1 / 2) * g.h / h - 1 / 2)⟩

/-- `np.max` over all pixels of a raster (`0` for an empty raster; the code
only applies it to rasters loaded by `cv2.imread`, which are non-empty). -/
def gmax (g : Gray) : ℚ :=
  ((List.range g.h).flatMap (fun y => (List.range g.w).map (fun x => g.px y x))).foldr max 0

/-- generate_mesh.py lines 41-46: normalise depth by the field maximum; an
all-zero field normalises to the all-zero field. -/
def depth_normalized (g : Gray) : ℕ → ℕ → ℚ :=
  if gmax g = 0 then fun _ _ => 0 else fun y x => g.px y x / gmax g

/-- generate_mesh.py line 53: `aspect_ratio = w / h`. -/
def aspect (w h : ℕ) : ℚ := (w : ℚ) / (h : ℚ)

/-- Grid X coordinate: `xv[i][j] = np.linspace(-ar, ar, d)[j]`. -/
def gridX (w h d : ℕ) (j : ℕ) : ℚ :=
  linspace (-(aspect w h)) (aspect w h) d j

/-- Grid Y coordinate: `yv[i][j] = np.linspace(-1, 1, d)[i]`. -/
def gridY (d : ℕ) (i : ℕ) : ℚ := linspace (-1) 1 d i

/-- generate_mesh.py lines 60 and 64: horizontal sampling coordinate
`np.clip(((xv / ar + 1) / 2 * w).astype(int), 0, w - 1)`. -/
def imgXCoord (w h d : ℕ) (j : ℕ) : ℕ :=
  clipNat (truncInt ((gridX w h d j / aspect w h + 1) / 2 * w)) (w - 1)

/-- generate_mesh.py lines 61 and 65: vertical sampling coordinate
`np.clip((((-yv) + 1) / 2 * h).astype(int), 0, h - 1)`. -/
def imgYCoord (h d : ℕ) (i : ℕ) : ℕ :=
  clipNat (truncInt ((-(gridY d i) + 1) / 2 * h)) (h - 1)

/-- The pixel mapping as the spec words it: `round` of the affine map,
then clamping — to be compared with the code's `imgXCoord`. -/
def imgXCoordSpec (w h d : ℕ) (j : ℕ) : ℕ :=
  clipNat (round ((gridX w h d j / aspect w h + 1) / 2 * w)) (w - 1)

/-- The vertical pixel mapping as the spec words it: `round`, then
clamping. -/
def imgYCoordSpec (h d : ℕ) (i : ℕ) : ℕ :=
  clipNat (round ((-(gridY d i) + 1) / 2 * h)) (h - 1)

/-- generate_mesh.py lines 68-73: depth sampled at the mapped pixel and
displaced, `zv = (sampled_depth - 0.5) * depth_scale`. -/
def zDisp (w h d : ℕ) (dn : ℕ → ℕ → ℚ) (s : ℚ) (i j : ℕ) : ℚ :=
  (dn (imgYCoord h d i) (imgXCoord w h d j) - 1 / 2) * s

/-- generate_mesh.py line 77: row-major flattened vertices (X, Y, Z). -/
def meshVertices (w h d : ℕ) (dn : ℕ → ℕ → ℚ) (s : ℚ) : List (ℚ × ℚ × ℚ) :=
  (List.range d).flatMap (fun i => (List.range d).map (fun j =>
    (gridX w h d j, gridY d i, zDisp w h d dn s i j)))

/-- generate_mesh.py lines 81-83: row-major flattened UV pairs. -/
def meshUVs (w h d : ℕ) : List (ℚ × ℚ) :=
  (List.range d).flatMap (fun i => (List.range d).map (fun j =>
    ((gridX w h d j / aspect w h + 1) / 2, (-(gridY d i) + 1) / 2)))

/-- generate_mesh.py lines 86-98: two triangles per grid cell, vertex
indices row-major flattened (`index = row * density + col`). -/
def meshFaces (d : ℕ) : List (ℕ × ℕ × ℕ) :=
  (List.range (d - 1)).flatMap (fun i => (List.range (d - 1)).flatMap (fun j =>
    [(i * d + j, i * d + (j + 1), (i + 1) * d + j),
     (i * d + (j + 1), (i + 1) * d + (j + 1), (i + 1) * d + j)]))

/-- The mesh value serialised by generate_mesh.py lines 100-104. -/
structure Mesh where
  vertices : List (ℚ × ℚ × ℚ)
  uvs : List (ℚ × ℚ)
  faces : List (ℕ × ℕ × ℕ)
  deriving DecidableEq

/-- Body of `generate_displaced_mesh` after both loads succeed: resize the
depth map when its dimensions differ from the image's, normalise, build the
grid, displace, emit vertices, UVs and faces. -/
def meshOf (img dm : Gray) (d : ℕ) (s : ℚ) : Mesh :=
  let dm2 := if dm.h ≠ img.h ∨ dm.w ≠ img.w then resizeGray dm img.w img.h else dm
  { vertices := meshVertices img.w img.h d (depth_normalized dm2) s
    uvs := meshUVs img.w img.h d
    faces := meshFaces d }

/-- generate_mesh.py `generate_displaced_mesh`: a `none` input models an
unreadable source (`cv2.imread` returned `None`), upon which the function
logs and returns normally with no mesh.  It raises no exception on any
input path (the JSON write's `IOError` is caught inside the function). -/
def generate_displaced_mesh (img dm : Option Gray) (grid_density : ℕ) (depth_scale : ℚ) :
    PyResult (Option Mesh) :=
  match img with
  | none => .normal none
  | some i =>
    match dm with
    | none => .normal none
    | some d0 => .normal (some (meshOf i d0 grid_density depth_scale))

/-- generate_views.py line 46: hard-coded perspective strength. -/
def perspective_strength : ℚ := 3 / 10

/-- generate_views.py lines 61-64: perspective scale at column `x`, with
the `center_x > 0` guard. -/
def perspective_scale (w : ℕ) (x : ℕ) : ℚ :=
  if 0 < (w : ℚ) / 2 then
    1 + (|(x : ℚ) - (w : ℚ) / 2| / ((w : ℚ) / 2)) * perspective_strength
  else 1

/-- generate_views.py lines 66-68: the shifted horizontal sampling
coordinate `map_x_base + shift_amount * (depth / 255) * perspective_scale`. -/
def map_x_shifted (w : ℕ) (dm : Gray) (shift_amount : ℚ) (x y : ℕ) : ℚ :=
  (x : ℚ) + shift_amount * (dm.px y x / 255) * perspective_scale w x

/-- One warped view: `cv2.remap(img, map_x_shifted, map_y, INTER_LINEAR,
BORDER_REPLICATE)` with the constant vertical map `map_y[y][x] = y`. -/
def warpedView (img dm : Gray) (shift_amount : ℚ) : Gray :=
  ⟨img.h, img.w, fun y x => bilinearSample img (map_x_shifted img.w dm shift_amount x y) (y : ℚ)⟩

/-- generate_views.py `shift_view`: one warped raster per requested shift,
in order, tagged with its shift amount (the tag models the shift value
embedded in the output filename).  `none` inputs model unreadable sources,
upon which the function logs and returns normally with no views. -/
def shift_view (img dm : Option Gray) (shifts : List ℚ) :
    PyResult (Option (List (ℚ × Gray))) :=
  match img with
  | none => .normal none
  | some i =>
    match dm with
    | none => .normal none
    | some d0 => .normal (some (shifts.map (fun s => (s, warpedView i d0 s))))

/-- Z coordinates of a produced mesh (empty when no mesh was produced). -/
def resultZs (r : PyResult (Option Mesh)) : List ℚ :=
  match r with
  | .normal (some m) => m.vertices.map (fun v => v.2.2)
  | _ => []

/-- Whether a call produced a mesh. -/
def producedMesh (r : PyResult (Option Mesh)) : Bool :=
  match r with
  | .normal (some _) => true
  | _ => false

/-- Number of vertices of a produced mesh (0 when none was produced). -/
def resultVertexCount (r : PyResult (Option Mesh)) : ℕ :=
  match r with
  | .normal (some m) => m.vertices.length
  | _ => 0

/-- Faces of a produced mesh (empty when none was produced). -/
def resultFaces (r : PyResult (Option Mesh)) : List (ℕ × ℕ × ℕ) :=
  match r with
  | .normal (some m) => m.faces
  | _ => []

/-- A 4-by-4 raster with every pixel equal to 128, the depth field of the
spec's end-to-end scenario. -/
def gray128 : Gray := ⟨4, 4, fun _ _ => 128⟩

/-- A 1-by-1 raster with its pixel equal to 1. -/
def gray1 : Gray := ⟨1, 1, fun _ _ => 1⟩

/-- A 2-by-2 all-zero raster. -/
def grayZero : Gray := ⟨2, 2, fun _ _ => 0⟩

/-- Length of a flatMap over `List.range` whose pieces share one length. -/
lemma length_flatMap_const {α : Type} (f : ℕ → List α) (c : ℕ) (h : ∀ k, (f k).length = c) :
    ∀ n, ((List.range n).flatMap f).length = n * c := by
  intro n
  induction n with
  | zero => simp
  | succ m ih => simp [List.range_succ, ih, h, Nat.succ_mul]

lemma length_meshVertices (w h d : ℕ) (dn : ℕ → ℕ → ℚ) (s : ℚ) :
    (meshVertices w h d dn s).length = d * d := by
  unfold meshVertices
  exact length_flatMap_const _ d (fun k => by simp) d

lemma length_meshUVs (w h d : ℕ) : (meshUVs w h d).length = d * d := by
  unfold meshUVs
  exact length_flatMap_const _ d (fun k => by simp) d

lemma length_meshFaces (d : ℕ) : (meshFaces d).length = 2 * (d - 1) * (d - 1) := by
  unfold meshFaces
  have : ∀ i : ℕ, ((List.range (d - 1)).flatMap (fun j =>
      [(i * d + j, i * d + (j + 1), (i + 1) * d + j),
       (i * d + (j + 1), (i + 1) * d + (j + 1), (i + 1) * d + j)])).length = (d - 1) * 2 :=
    fun i => length_flatMap_const _ 2 (fun k => by simp) (d - 1)
  rw [length_flatMap_const _ ((d - 1) * 2) this (d - 1)]
  ring

lemma mem_range_flatMap_map {α : Type} {v : α} {n m : ℕ} {g : ℕ → ℕ → α}
    (hv : v ∈ (List.range n).flatMap (fun i => (List.range m).map (fun j => g i j))) :
    ∃ i j, i < n ∧ j < m ∧ v = g i j := by
  simp only [List.mem_flatMap, List.mem_map, List.mem_range] at hv
  obtain ⟨i, hi, j, hj, hg⟩ := hv
  exact ⟨i, j, hi, hj, hg.symm⟩

lemma mem_meshFaces {d : ℕ} {t : ℕ × ℕ × ℕ} (ht : t ∈ meshFaces d) :
    ∃ i j, i < d - 1 ∧ j < d - 1 ∧
      (t = (i * d + j, i * d + (j + 1), (i + 1) * d + j) ∨
       t = (i * d + (j + 1), (i + 1) * d + (j + 1), (i + 1) * d + j)) := by
  unfold meshFaces at ht
  simp only [List.mem_flatMap, List.mem_range, List.mem_cons, List.mem_singleton,
    List.not_mem_nil, or_false] at ht
  obtain ⟨i, hi, j, hj, hc⟩ := ht
  exact ⟨i, j, hi, hj, hc⟩

lemma foldr_max_nonneg (l : List ℚ) : 0 ≤ l.foldr max 0 := by
  induction l with
  | nil => simp
  | cons b t ih => exact le_trans ih (le_max_right b _)

lemma le_foldr_max {l : List ℚ} {a : ℚ} (h : a ∈ l) : a ≤ l.foldr max 0 := by
  induction l with
  | nil => cases h
  | cons b t ih =>
      rcases List.mem_cons.1 h with rfl | hmem
      · exact le_max_left a _
      · exact le_trans (ih hmem) (le_max_right b _)

lemma foldr_max_eq_zero {l : List ℚ} (h : ∀ a ∈ l, a = 0) : l.foldr max 0 = 0 := by
  induction l with
  | nil => simp
  | cons b t ih =>
      simp only [List.foldr_cons]
      rw [h b (List.mem_cons_self b t), ih (fun a ha => h a (List.mem_cons_of_mem b ha))]
      simp

lemma gmax_nonneg (g : Gray) : 0 ≤ gmax g := foldr_max_nonneg _

lemma le_gmax {g : Gray} {y x : ℕ} (hy : y < g.h) (hx : x < g.w) : g.px y x ≤ gmax g := by
  apply le_foldr_max
  simp only [List.mem_flatMap, List.mem_map, List.mem_range]
  exact ⟨y, hy, x, hx, rfl⟩

lemma gmax_dims_pos {g : Gray} (hm : gmax g ≠ 0) : 0 < g.h ∧ 0 < g.w := by
  constructor
  · by_contra hh
    have : g.h = 0 := by omega
    apply hm
    unfold gmax
    simp [this]
  · by_contra hw
    have : g.w = 0 := by omega
    apply hm
    unfold gmax
    rw [this]
    simp only [List.range_zero, List.map_nil]
    apply foldr_max_eq_zero
    intro a ha
    simp only [List.mem_flatMap, List.not_mem_nil, and_false, exists_false] at ha

lemma gmax_eq_zero {g : Gray} (hz : ∀ y x, g.px y x = 0) : gmax g = 0 := by
  apply foldr_max_eq_zero
  intro a ha
  simp only [List.mem_flatMap, List.mem_map, List.mem_range] at ha
  obtain ⟨y, _, x, _, he⟩ := ha
  rw [← he, hz]

lemma clipNat_le (v : ℤ) (hi : ℕ) : clipNat v hi ≤ hi := by
  unfold clipNat
  omega

lemma clipNat_lt {n : ℕ} (v : ℤ) (hn : 0 < n) : clipNat v (n - 1) < n := by
  have := clipNat_le v (n - 1)
  omega

lemma clampIdx_natCast {x n : ℕ} (hx : x < n) : clampIdx (x : ℤ) n = x := by
  unfold clampIdx
  omega

lemma floor_sub_bounds (q : ℚ) : 0 ≤ q - (⌊q⌋ : ℚ) ∧ q - (⌊q⌋ : ℚ) ≤ 1 := by
  constructor
  · have := Int.floor_le q
    linarith
  · have := Int.lt_floor_add_one q
    linarith

lemma bilinearSample_nonneg {g : Gray} (hpx : ∀ y x, 0 ≤ g.px y x) (fx fy : ℚ) :
    0 ≤ bilinearSample g fx fy := by
  unfold bilinearSample
  obtain ⟨hx0, hx1⟩ := floor_sub_bounds fx
  obtain ⟨hy0, hy1⟩ := floor_sub_bounds fy
  have h1x : 0 ≤ 1 - (fx - (⌊fx⌋ : ℚ)) := by linarith
  have h1y : 0 ≤ 1 - (fy - (⌊fy⌋ : ℚ)) := by linarith
  apply add_nonneg
  · exact mul_nonneg h1y (add_nonneg (mul_nonneg h1x (hpx _ _)) (mul_nonneg hx0 (hpx _ _)))
  · exact mul_nonneg hy0 (add_nonneg (mul_nonneg h1x (hpx _ _)) (mul_nonneg hx0 (hpx _ _)))

lemma bilinearSample_zero {g : Gray} (hz : ∀ y x, g.px y x = 0) (fx fy : ℚ) :
    bilinearSample g fx fy = 0 := by
  unfold bilinearSample
  simp [hz]

lemma resizeGray_nonneg {g : Gray} (hpx : ∀ y x, 0 ≤ g.px y x) (w h : ℕ) :
    ∀ y x, 0 ≤ (resizeGray g w h).px y x := by
  intro y x
  exact bilinearSample_nonneg hpx _ _

lemma resizeGray_zero {g : Gray} (hz : ∀ y x, g.px y x = 0) (w h : ℕ) :
    ∀ y x, (resizeGray g w h).px y x = 0 := by
  intro y x
  exact bilinearSample_zero hz _ _

lemma depth_normalized_mem (g : Gray) (hpx : ∀ a b, 0 ≤ g.px a b) (y x : ℕ)
    (hy : gmax g ≠ 0 → y < g.h) (hx : gmax g ≠ 0 → x < g.w) :
    0 ≤ depth_normalized g y x ∧ depth_normalized g y x ≤ 1 := by
  unfold depth_normalized
  by_cases hm : gmax g = 0
  · simp [hm]
  · simp only [if_neg hm]
    have hpos : 0 < gmax g := lt_of_le_of_ne (gmax_nonneg g) (Ne.symm hm)
    constructor
    · exact div_nonneg (hpx y x) (le_of_lt hpos)
    · rw [div_le_one hpos]
      exact le_gmax (hy hm) (hx hm)

lemma depth_normalized_of_zero (g : Gray) (hz : ∀ y x, g.px y x = 0) (y x : ℕ) :
    depth_normalized g y x = 0 := by
  unfold depth_normalized
  simp [gmax_eq_zero hz]

lemma face_idx_lt {d i j : ℕ} (hi : i < d - 1) (hj : j < d - 1) :
    (i + 1) * d + (j + 1) < d * d := by
  obtain ⟨e, rfl⟩ : ∃ e, d = e + 2 := ⟨d - 2, by omega⟩
  have hi2 : i ≤ e := by omega
  have hj2 : j ≤ e := by omega
  nlinarith

/-- C1: for every grid density d ≥ 2 and all readable image and depth
inputs, the mesh produced by `generate_displaced_mesh` has exactly d²
vertices, d² UV pairs, 2(d-1)² faces, and every vertex index in a face lies
within [0, d²). -/
theorem C1_mesh_counts (d : ℕ) (hd : 2 ≤ d) (img dm : Gray) (s : ℚ) :
    ∃ m, generate_displaced_mesh (some img) (some dm) d s = PyResult.normal (some m) ∧
      m.vertices.length = d ^ 2 ∧ m.uvs.length = d ^ 2 ∧
      m.faces.length = 2 * (d - 1) ^ 2 ∧
      ∀ t ∈ m.faces, t.1 < d ^ 2 ∧ t.2.1 < d ^ 2 ∧ t.2.2 < d ^ 2 := by
  refine ⟨meshOf img dm d s, rfl, ?_, ?_, ?_, ?_⟩
  · simp only [meshOf]
    rw [length_meshVertices, pow_two]
  · simp only [meshOf]
    rw [length_meshUVs, pow_two]
  · simp only [meshOf]
    rw [length_meshFaces, pow_two]
    ring
  · intro t ht
    simp only [meshOf] at ht
    obtain ⟨i, j, hi, hj, hc⟩ := mem_meshFaces ht
    have hmax := face_idx_lt hi hj
    have h1 : i * d + j < d * d := by
      have : i * d ≤ (i + 1) * d := Nat.mul_le_mul_right d (by omega)
      omega
    have h2 : i * d + (j + 1) < d * d := by
      have : i * d ≤ (i + 1) * d := Nat.mul_le_mul_right d (by omega)
      omega
    have h3 : (i + 1) * d + j < d * d := by omega
    rw [pow_two]
    rcases hc with rfl | rfl
    · exact ⟨h1, h2, h3⟩
    · exact ⟨h2, hmax, h3⟩

/-- C1 witness at density 2 on a 1x1 image. -/
theorem C1_mesh_counts_witness :
    (2 ≤ 2) ∧
    ∃ m, generate_displaced_mesh (some gray1) (some gray1) 2 0 = PyResult.normal (some m) ∧
      m.vertices.length = 2 ^ 2 ∧ m.uvs.length = 2 ^ 2 ∧
      m.faces.length = 2 * (2 - 1) ^ 2 ∧
      ∀ t ∈ m.faces, t.1 < 2 ^ 2 ∧ t.2.1 < 2 ^ 2 ∧ t.2.2 < 2 ^ 2 :=
  ⟨by norm_num, C1_mesh_counts 2 (by norm_num) gray1 gray1 0⟩

/-- C7 counterexample: called with density 1 (< 2) on readable inputs, the
code performs no validation and returns a degenerate mesh (one vertex, no
faces) instead of failing with an InvalidParameter error. -/
theorem C7_counterexample :
    producedMesh (generate_displaced_mesh (some gray1) (some gray1) 1 0) = true ∧
    resultVertexCount (generate_displaced_mesh (some gray1) (some gray1) 1 0) = 1 ∧
    resultFaces (generate_displaced_mesh (some gray1) (some gray1) 1 0) = [] := by
  refine ⟨rfl, ?_, ?_⟩
  · show (meshOf gray1 gray1 1 0).vertices.length = 1
    simp only [meshOf]
    rw [length_meshVertices]
  · show (meshOf gray1 gray1 1 0).faces = []
    simp only [meshOf, meshFaces]
    rfl

/-- C7 amended: `generate_displaced_mesh` performs no density validation;
with density d < 2 and readable inputs it returns normally a degenerate
mesh with d² vertices and no faces, raising no error. -/
theorem C7_no_density_validation (d : ℕ) (hd : d < 2) (img dm : Gray) (s : ℚ) :
    ∃ m, generate_displaced_mesh (some img) (some dm) d s = PyResult.normal (some m) ∧
      m.vertices.length = d * d ∧ m.faces = [] := by
  refine ⟨meshOf img dm d s, rfl, ?_, ?_⟩
  · simp only [meshOf]
    rw [length_meshVertices]
  · simp only [meshOf]
    unfold meshFaces
    have hz : d - 1 = 0 := by omega
    rw [hz]
    rfl

/-- C7 amended witness at density 1. -/
theorem C7_no_density_validation_witness :
    (1 < 2) ∧
    ∃ m, generate_displaced_mesh (some gray1) (some gray1) 1 0 = PyResult.normal (some m) ∧
      m.vertices.length = 1 * 1 ∧ m.faces = [] :=
  ⟨by norm_num, C7_no_density_validation 1 (by norm_num) gray1 gray1 0⟩

/-- C8 amended: an unreadable image or depth source makes both
`generate_displaced_mesh` and `shift_view` log and return normally with no
output at all (no partial Mesh, no partial ViewSet); no IOError is raised
to the caller. -/
theorem C8_unreadable_no_output (dm : Option Gray) (img : Gray) (d : ℕ) (s : ℚ)
    (shifts : List ℚ) :
    generate_displaced_mesh none dm d s = PyResult.normal none ∧
    generate_displaced_mesh (some img) none d s = PyResult.normal none ∧
    shift_view none dm shifts = PyResult.normal none ∧
    shift_view (some img) none shifts = PyResult.normal none :=
  ⟨rfl, rfl, rfl, rfl⟩

/-- C8 counterexample: on unreadable sources neither function ends in a
propagated exception — no IOError reaches the caller, contrary to the
claim. -/
theorem C8_counterexample :
    (generate_displaced_mesh none (some gray1) 4 (1 / 10)).isExn = false ∧
    (generate_displaced_mesh (some gray1) none 4 (1 / 10)).isExn = false ∧
    (shift_view none (some gray1) [0]).isExn = false ∧
    (shift_view (some gray1) none [0]).isExn = false :=
  ⟨rfl, rfl, rfl, rfl⟩

/-- C3: in `shift_view`, the horizontal displacement applied at pixel
(x, y) is shift * (depth/255) * (1 + (|x - W/2| / (W/2)) * strength) — the
depth is normalised by the fixed constant 255, not by the field maximum. -/
theorem C3_shift_formula (w : ℕ) (hw : 0 < w) (dm : Gray) (s : ℚ) (x y : ℕ) :
    map_x_shifted w dm s x y - (x : ℚ) =
      s * (dm.px y x / 255) *
        (1 + (|(x : ℚ) - (w : ℚ) / 2| / ((w : ℚ) / 2)) * perspective_strength) := by
  have hwq : (0 : ℚ) < (w : ℚ) / 2 := by
    have : (0 : ℚ) < (w : ℚ) := by exact_mod_cast hw
    linarith
  unfold map_x_shifted perspective_scale
  rw [if_pos hwq]
  ring

/-- C3 witness on a 1x1 raster at the origin pixel. -/
theorem C3_shift_formula_witness :
    (0 < 1) ∧
    map_x_shifted 1 gray1 5 0 0 - ((0 : ℕ) : ℚ) =
      5 * (gray1.px 0 0 / 255) *
        (1 + (|((0 : ℕ) : ℚ) - (1 : ℕ) / 2| / (((1 : ℕ) : ℚ) / 2)) * perspective_strength) :=
  ⟨by norm_num, C3_shift_formula 1 (by norm_num) gray1 5 0 0⟩

/-- C6: a shift amount of 0 makes the warp the identity transform: the
sampling coordinate of every pixel is the pixel's own coordinate, and the
warped view reproduces the source pixel exactly. -/
theorem C6_zero_shift_identity (img dm : Gray) (x y : ℕ) (hx : x < img.w) (hy : y < img.h) :
    map_x_shifted img.w dm 0 x y = (x : ℚ) ∧
    (warpedView img dm 0).px y x = img.px y x := by
  have hmap : map_x_shifted img.w dm 0 x y = (x : ℚ) := by
    unfold map_x_shifted
    ring
  refine ⟨hmap, ?_⟩
  show bilinearSample img (map_x_shifted img.w dm 0 x y) (y : ℚ) = img.px y x
  rw [hmap]
  unfold bilinearSample
  rw [Int.floor_natCast, Int.floor_natCast]
  rw [clampIdx_natCast hx, clampIdx_natCast hy]
  push_cast
  ring

/-- C6 witness on a 1x1 raster. -/
theorem C6_zero_shift_identity_witness :
    (0 < gray1.w) ∧ (0 < gray1.h) ∧
    (map_x_shifted gray1.w gray1 0 0 0 = ((0 : ℕ) : ℚ) ∧
      (warpedView gray1 gray1 0).px 0 0 = gray1.px 0 0) :=
  ⟨by norm_num [gray1], by norm_num [gray1],
    C6_zero_shift_identity gray1 gray1 0 0 (by norm_num [gray1]) (by norm_num [gray1])⟩

/-- C9: an all-zero depth field is not an error: it normalises to the
all-zero field and the produced mesh is flat with every vertex Z equal to
-s/2. -/
theorem C9_zero_depth_flat (img dm : Gray) (d : ℕ) (s : ℚ)
    (hz : ∀ y x, dm.px y x = 0) :
    generate_displaced_mesh (some img) (some dm) d s =
      PyResult.normal (some (meshOf img dm d s)) ∧
    ∀ v ∈ (meshOf img dm d s).vertices, v.2.2 = -(s / 2) := by
  refine ⟨rfl, ?_⟩
  intro v hv
  simp only [meshOf] at hv
  have hz2 : ∀ y x,
      (if dm.h ≠ img.h ∨ dm.w ≠ img.w then resizeGray dm img.w img.h else dm).px y x = 0 := by
    by_cases hc : dm.h ≠ img.h ∨ dm.w ≠ img.w
    · rw [if_pos hc]
      exact resizeGray_zero hz _ _
    · rw [if_neg hc]
      exact hz
  obtain ⟨i, j, hi, hj, rfl⟩ := mem_range_flatMap_map hv
  show zDisp img.w img.h d _ s i j = -(s / 2)
  unfold zDisp
  rw [depth_normalized_of_zero _ hz2]
  ring

/-- C9 witness: 2x2 all-zero depth on a 1x1 image, density 2, scale 1. -/
theorem C9_zero_depth_flat_witness :
    (∀ y x, grayZero.px y x = 0) ∧
    (generate_displaced_mesh (some gray1) (some grayZero) 2 1 =
      PyResult.normal (some (meshOf gray1 grayZero 2 1)) ∧
    ∀ v ∈ (meshOf gray1 grayZero 2 1).vertices, v.2.2 = -(1 / 2)) := by
  refine ⟨fun y x => rfl, ?_⟩
  have h := C9_zero_depth_flat gray1 grayZero 2 1 (fun y x => rfl)
  simpa using h

/-- C10: for every pixel column x in [0, W-1] and 8-bit depth value in
[0, 255], the perspective scale lies in [1, 1 + strength], so the absolute
horizontal displacement is at most |shift| * (1 + strength) = 1.3 |shift|. -/
theorem C10_displacement_bound (w : ℕ) (dm : Gray) (s : ℚ) (x y : ℕ)
    (hw : 0 < w) (hx : x < w) (hd0 : 0 ≤ dm.px y x) (hd : dm.px y x ≤ 255) :
    (1 ≤ perspective_scale w x ∧ perspective_scale w x ≤ 1 + perspective_strength) ∧
    |map_x_shifted w dm s x y - (x : ℚ)| ≤ |s| * (1 + perspective_strength) ∧
    1 + perspective_strength = 13 / 10 := by
  have hwx : (x : ℚ) < (w : ℚ) := by exact_mod_cast hx
  have hx0 : (0 : ℚ) ≤ (x : ℚ) := by positivity
  have hwq : (0 : ℚ) < (w : ℚ) / 2 := by
    have : (0 : ℚ) < (w : ℚ) := by exact_mod_cast hw
    linarith
  have hrel : |(x : ℚ) - (w : ℚ) / 2| ≤ (w : ℚ) / 2 := by
    rw [abs_le]
    constructor <;> linarith
  have hratio1 : |(x : ℚ) - (w : ℚ) / 2| / ((w : ℚ) / 2) ≤ 1 := (div_le_one hwq).2 hrel
  have hratio0 : 0 ≤ |(x : ℚ) - (w : ℚ) / 2| / ((w : ℚ) / 2) :=
    div_nonneg (abs_nonneg _) (le_of_lt hwq)
  have hsc : perspective_scale w x =
      1 + (|(x : ℚ) - (w : ℚ) / 2| / ((w : ℚ) / 2)) * perspective_strength := by
    unfold perspective_scale
    rw [if_pos hwq]
  have hps : perspective_strength = 3 / 10 := rfl
  have hsc1 : 1 ≤ perspective_scale w x := by
    rw [hsc, hps]
    nlinarith
  have hsc2 : perspective_scale w x ≤ 1 + perspective_strength := by
    rw [hsc, hps]
    nlinarith
  refine ⟨⟨hsc1, hsc2⟩, ?_, by norm_num [hps]⟩
  have hmap : map_x_shifted w dm s x y - (x : ℚ) =
      s * (dm.px y x / 255) * perspective_scale w x := by
    unfold map_x_shifted
    ring
  rw [hmap, abs_mul, abs_mul]
  have hq0 : (0 : ℚ) ≤ dm.px y x / 255 := by positivity
  have hq1 : dm.px y x / 255 ≤ 1 := by
    rw [div_le_one]
    · exact hd
    · norm_num
  rw [abs_of_nonneg hq0, abs_of_nonneg (le_trans zero_le_one hsc1)]
  have habs : (0 : ℚ) ≤ |s| := abs_nonneg s
  have hP0 : (0 : ℚ) ≤ perspective_scale w x := le_trans zero_le_one hsc1
  have hrw : |s| * (dm.px y x / 255) * perspective_scale w x =
      |s| * perspective_scale w x * (dm.px y x / 255) := by ring
  rw [hrw]
  calc |s| * perspective_scale w x * (dm.px y x / 255)
      ≤ |s| * perspective_scale w x * 1 :=
        mul_le_mul_of_nonneg_left hq1 (mul_nonneg habs hP0)
    _ = |s| * perspective_scale w x := mul_one _
    _ ≤ |s| * (1 + perspective_strength) := mul_le_mul_of_nonneg_left hsc2 habs

/-- C10 witness: W = 2, pixel column 1, on the 1x1 constant raster. -/
theorem C10_displacement_bound_witness :
    (0 < 2) ∧ (1 < 2) ∧ (0 ≤ gray1.px 0 1) ∧ (gray1.px 0 1 ≤ 255) ∧
    ((1 ≤ perspective_scale 2 1 ∧ perspective_scale 2 1 ≤ 1 + perspective_strength) ∧
      |map_x_shifted 2 gray1 5 1 0 - ((1 : ℕ) : ℚ)| ≤ |(5 : ℚ)| * (1 + perspective_strength) ∧
      1 + perspective_strength = 13 / 10) :=
  ⟨by norm_num, by norm_num, by norm_num [gray1], by norm_num [gray1],
    C10_displacement_bound 2 gray1 5 1 0 (by norm_num) (by norm_num)
      (by norm_num [gray1]) (by norm_num [gray1])⟩

/-- C2: with depthScale s ≥ 0 and a non-negative depth field (whose
normalisation therefore lies in [0,1]), every Z coordinate produced by
`generate_displaced_mesh` lies in [-s/2, +s/2]. -/
theorem C2_z_range (img dm : Gray) (d : ℕ) (s : ℚ) (hs : 0 ≤ s)
    (hpx : ∀ y x, 0 ≤ dm.px y x) :
    generate_displaced_mesh (some img) (some dm) d s =
      PyResult.normal (some (meshOf img dm d s)) ∧
    ∀ v ∈ (meshOf img dm d s).vertices, -(s / 2) ≤ v.2.2 ∧ v.2.2 ≤ s / 2 := by
  refine ⟨rfl, ?_⟩
  intro v hv
  simp only [meshOf] at hv
  set dm2 := if dm.h ≠ img.h ∨ dm.w ≠ img.w then resizeGray dm img.w img.h else dm with hdm2
  have hpx2 : ∀ y x, 0 ≤ dm2.px y x := by
    rw [hdm2]
    by_cases hc : dm.h ≠ img.h ∨ dm.w ≠ img.w
    · rw [if_pos hc]
      exact resizeGray_nonneg hpx _ _
    · rw [if_neg hc]
      exact hpx
  have hdims : dm2.h = img.h ∧ dm2.w = img.w := by
    rw [hdm2]
    by_cases hc : dm.h ≠ img.h ∨ dm.w ≠ img.w
    · rw [if_pos hc]
      exact ⟨rfl, rfl⟩
    · rw [if_neg hc]
      push_neg at hc
      exact ⟨hc.1, hc.2⟩
  obtain ⟨i, j, hi, hj, rfl⟩ := mem_range_flatMap_map hv
  show -(s / 2) ≤ zDisp img.w img.h d (depth_normalized dm2) s i j ∧
    zDisp img.w img.h d (depth_normalized dm2) s i j ≤ s / 2
  unfold zDisp
  have ht := depth_normalized_mem dm2 hpx2 (imgYCoord img.h d i) (imgXCoord img.w img.h d j)
    (fun hm => by
      rw [hdims.1]
      have := (gmax_dims_pos hm).1
      rw [hdims.1] at this
      exact clipNat_lt _ this)
    (fun hm => by
      rw [hdims.2]
      have := (gmax_dims_pos hm).2
      rw [hdims.2] at this
      exact clipNat_lt _ this)
  obtain ⟨ht0, ht1⟩ := ht
  constructor <;> nlinarith

/-- C2 witness: 1x1 constant-1 image and depth, density 2, scale 1. -/
theorem C2_z_range_witness :
    (0 ≤ (1 : ℚ)) ∧ (∀ y x, 0 ≤ gray1.px y x) ∧
    (generate_displaced_mesh (some gray1) (some gray1) 2 1 =
      PyResult.normal (some (meshOf gray1 gray1 2 1)) ∧
    ∀ v ∈ (meshOf gray1 gray1 2 1).vertices, -((1 : ℚ) / 2) ≤ v.2.2 ∧ v.2.2 ≤ (1 : ℚ) / 2) := by
  refine ⟨by norm_num, fun y x => by norm_num [gray1], ?_⟩
  have h := C2_z_range gray1 gray1 2 1 (by norm_num) (fun y x => by norm_num [gray1])
  simpa using h

/-- C4 counterexample: on a 3x3 image with density 3, the code samples the
middle lattice column at pixel column 1 (truncation of 1.5), while the
claimed `round` formula gives pixel column 2. -/
theorem C4_counterexample :
    imgXCoord 3 3 3 1 = 1 ∧ imgXCoordSpec 3 3 3 1 = 2 ∧
    imgXCoord 3 3 3 1 ≠ imgXCoordSpec 3 3 3 1 := by
  have h1 : gridX 3 3 3 1 = 0 := by
    norm_num [gridX, aspect, linspace]
  have h2 : imgXCoord 3 3 3 1 = 1 := by
    unfold imgXCoord
    rw [h1]
    norm_num [aspect, truncInt, clipNat]
  have h3 : imgXCoordSpec 3 3 3 1 = 2 := by
    unfold imgXCoordSpec
    rw [h1]
    norm_num [aspect, clipNat, round_eq]
    omega
  exact ⟨h2, h3, by rw [h2, h3]; norm_num⟩

/-- C4 amended: the sampled pixel coordinate is the affine map converted
with truncation toward zero (equal to `floor`, the operand being
non-negative at lattice points), then clamped — not `round`. -/
theorem C4_trunc_formula (w h d i j : ℕ) (hd : 2 ≤ d) (hi : i < d) (hj : j < d) :
    imgXCoord w h d j =
      clipNat ⌊(gridX w h d j / aspect w h + 1) / 2 * (w : ℚ)⌋ (w - 1) ∧
    imgYCoord h d i =
      clipNat ⌊(-(gridY d i) + 1) / 2 * (h : ℚ)⌋ (h - 1) := by
  have hd1 : ((d : ℚ) - 1) ≠ 0 := by
    have : (2 : ℚ) ≤ (d : ℚ) := by exact_mod_cast hd
    linarith
  have hd1p : (0 : ℚ) < (d : ℚ) - 1 := by
    have : (2 : ℚ) ≤ (d : ℚ) := by exact_mod_cast hd
    linarith
  constructor
  · have hnn : 0 ≤ (gridX w h d j / aspect w h + 1) / 2 * (w : ℚ) := by
      have har : 0 ≤ aspect w h :=
        div_nonneg (Nat.cast_nonneg w) (Nat.cast_nonneg h)
      by_cases har0 : aspect w h = 0
      · rw [har0, div_zero]
        positivity
      · have harpos : 0 < aspect w h := lt_of_le_of_ne har (Ne.symm har0)
        have hgx : gridX w h d j / aspect w h = -1 + 2 * (j : ℚ) / ((d : ℚ) - 1) := by
          unfold gridX linspace
          rw [if_neg (by omega : ¬ d ≤ 1)]
          field_simp
          ring
        rw [hgx]
        have ht : 0 ≤ 2 * (j : ℚ) / ((d : ℚ) - 1) := by positivity
        have hw0 : (0 : ℚ) ≤ (w : ℚ) := Nat.cast_nonneg w
        nlinarith
    unfold imgXCoord truncInt
    rw [if_pos hnn]
  · have hgy : gridY d i = -1 + 2 * (i : ℚ) / ((d : ℚ) - 1) := by
      unfold gridY linspace
      rw [if_neg (by omega : ¬ d ≤ 1)]
      ring
    have hnn : 0 ≤ (-(gridY d i) + 1) / 2 * (h : ℚ) := by
      rw [hgy]
      have hiq : (i : ℚ) ≤ (d : ℚ) - 1 := by
        have : (i : ℚ) + 1 ≤ (d : ℚ) := by exact_mod_cast hi
        linarith
      have ht : 2 * (i : ℚ) / ((d : ℚ) - 1) ≤ 2 := by
        rw [div_le_iff hd1p]
        linarith
      have hh0 : (0 : ℚ) ≤ (h : ℚ) := Nat.cast_nonneg h
      nlinarith
    unfold imgYCoord truncInt
    rw [if_pos hnn]

/-- C4 amended witness at the 3x3 image, density 3, middle lattice point. -/
theorem C4_trunc_formula_witness :
    (2 ≤ 3) ∧ (1 < 3) ∧
    (imgXCoord 3 3 3 1 =
      clipNat ⌊(gridX 3 3 3 1 / aspect 3 3 + 1) / 2 * ((3 : ℕ) : ℚ)⌋ (3 - 1) ∧
    imgYCoord 3 3 1 =
      clipNat ⌊(-(gridY 3 1) + 1) / 2 * ((3 : ℕ) : ℚ)⌋ (3 - 1)) :=
  ⟨by norm_num, by norm_num,
    C4_trunc_formula 3 3 3 1 1 (by norm_num) (by norm_num) (by norm_num)⟩
lemma gmax_gray128 : gmax gray128 = 128 := by
  norm_num [gmax, gray128, List.range_succ, max_def]

lemma dn_gray128 : depth_normalized gray128 = fun _ _ => 1 := by
  funext y x
  unfold depth_normalized
  rw [gmax_gray128]
  norm_num [gray128]

lemma resultZs_gray128 :
    resultZs (generate_displaced_mesh (some gray128) (some gray128) 4 (1 / 5)) =
      [1/10, 1/10, 1/10, 1/10, 1/10, 1/10, 1/10, 1/10,
       1/10, 1/10, 1/10, 1/10, 1/10, 1/10, 1/10, 1/10] := by
  show resultZs (PyResult.normal (some (meshOf gray128 gray128 4 (1 / 5)))) = _
  simp only [resultZs, meshOf]
  rw [if_neg (by norm_num [gray128] : ¬(gray128.h ≠ gray128.h ∨ gray128.w ≠ gray128.w))]
  rw [dn_gray128]
  simp [meshVertices, zDisp, List.range_succ]
  norm_num

/-- C5 counterexample: with the 4x4 all-128 depth field, density 4 and
depthScale 0.2, every vertex Z is 1/10 — the code normalises by the field
maximum 128, so the claimed value (128/255 - 1/2) * (1/5) is wrong by far
more than floating tolerance. -/
theorem C5_counterexample :
    resultZs (generate_displaced_mesh (some gray128) (some gray128) 4 (1 / 5)) =
      [1/10, 1/10, 1/10, 1/10, 1/10, 1/10, 1/10, 1/10,
       1/10, 1/10, 1/10, 1/10, 1/10, 1/10, 1/10, 1/10] ∧
    ((1 : ℚ) / 10 ≠ (128 / 255 - 1 / 2) * (1 / 5)) ∧
    ((1 : ℚ) / 10 - (128 / 255 - 1 / 2) * (1 / 5) > 9 / 100) := by
  refine ⟨resultZs_gray128, by norm_num, by norm_num⟩

/-- C5 amended: the mesh of the 4x4 all-128 scenario is flat, displaced
uniformly at Z = (128/128 - 0.5) * 0.2 = 0.1, because the mesh builder
normalises depth by the field maximum. -/
theorem C5_flat128 :
    resultZs (generate_displaced_mesh (some gray128) (some gray128) 4 (1 / 5)) =
      [1/10, 1/10, 1/10, 1/10, 1/10, 1/10, 1/10, 1/10,
       1/10, 1/10, 1/10, 1/10, 1/10, 1/10, 1/10, 1/10] ∧
    ((1 : ℚ) / 10 = ((128 : ℚ) / 128 - 1 / 2) * (1 / 5)) := by
  refine ⟨resultZs_gray128, by norm_num⟩
